import Mathlib

/-!
Verification of the Medtronic RC+S time-domain ingestion algorithm
(medtronicrcs pseudocode): a per-packet loop that maintains a tick-clock
tracker (chunk origin, accumulated ticks, previous tick), a sample-rate
state, and emits one `(timestamp, channel, voltage)` record per sample per
channel.  All real-valued arithmetic of the source is modelled over `ℚ`.
-/

attribute [local semireducible] Rat.mul Rat.add Rat.sub Rat.inv Rat.ofScientific

namespace RCS

/-- One emitted record: `(timestamp, channel_index, voltage)`. -/
abbrev Record := ℚ × ℕ × ℚ

/-- Errors the per-packet loop can hit at run time: an unknown unit tag
(a failing dictionary lookup), an out-of-range channel or sample index,
or tick arithmetic attempted before any rate was ever set. -/
inductive IngestError where
  | unknownUnit
  | channelIndexError
  | sampleIndexError
  | rateUnset
deriving Repr, DecidableEq

/-- `MEDTRONIC_EPOCH = 951868800` — 2000-03-01 00:00:00 UTC as a UNIX time. -/
def MEDTRONIC_EPOCH : ℚ := 951868800

/-- `SYSTEM_TICK_CLOCK = 1 <<< 16` — the modulus of the 16-bit hardware tick counter. -/
def SYSTEM_TICK_CLOCK : ℤ := 65536

/-- `SYSTEM_TICK_DURATION = 0.0001` seconds per hardware tick. -/
def SYSTEM_TICK_DURATION : ℚ := 1 / 10000

/-- The `V_UNIT_SCALE` dictionary: multiplier taking a raw value in the given
unit to volts; lookup of any other tag fails. -/
def V_UNIT_SCALE (u : String) : Option ℚ :=
  if u = "megavolts" then some 1000000
  else if u = "kilovolts" then some 1000
  else if u = "volts" then some 1
  else if u = "millivolts" then some (1 / 1000)
  else if u = "microvolts" then some (1 / 1000000)
  else none

/-- One telemetry packet, with the header fields the loop reads and the
per-channel raw sample arrays (`channels[c]` is channel `c`'s `Value` list). -/
structure Packet where
  units : String
  sampleRate : ℕ
  dataTypeSequence : ℤ
  timestampSeconds : ℚ
  systemTick : ℤ
  channels : List (List ℚ)
deriving Repr, DecidableEq

/-- The mutable loop state of the ingestion pseudocode. -/
structure IngestState where
  medtronic_timestamp_prev : Option ℚ
  sample_rate : Option ℕ
  system_tick_time : ℤ
  system_tick_prev : Option ℤ
  t_chunk_start : Option ℚ
  ticks_per_point : Option ℚ
  packet_number_prev : Option ℤ
deriving Repr, DecidableEq

/-- The initial loop state (every tracked variable unset, tick accumulator 0). -/
def initState : IngestState :=
  { medtronic_timestamp_prev := none
    sample_rate := none
    system_tick_time := 0
    system_tick_prev := none
    t_chunk_start := none
    ticks_per_point := none
    packet_number_prev := none }

/-- The sample-rate update: when the packet's declared rate code differs from
the stored one, recompute `sampling_freq = 250 * 2^code`,
`sampling_period = 1 / sampling_freq`,
`ticks_per_point = sampling_period / SYSTEM_TICK_DURATION`; otherwise keep both. -/
def rateUpdate (sr : Option ℕ) (tpp : Option ℚ) (code : ℕ) : Option ℕ × Option ℚ :=
  if some code ≠ sr then
    let sampling_freq : ℚ := 250 * 2 ^ code
    let sampling_period : ℚ := 1 / sampling_freq
    (some code, some (sampling_period / SYSTEM_TICK_DURATION))
  else (sr, tpp)

/-- The ticks-per-point value in effect while processing a packet
(after the packet's own rate update). -/
def tppOf (s : IngestState) (p : Packet) : Option ℚ :=
  (rateUpdate s.sample_rate s.ticks_per_point p.sampleRate).2

/-- The re-sync condition: no chunk started yet, or the coarse device
timestamp drifted at least 5 seconds from the previous packet's. -/
def resyncNeeded (tcs : Option ℚ) (mts mts_prev : ℚ) : Bool :=
  tcs.isNone || decide (5 ≤ |mts - mts_prev|)

/-- `channels[c]["Value"][i]` with the two unguarded indexings made explicit. -/
def getSample (channels : List (List ℚ)) (c i : ℕ) : Except IngestError ℚ :=
  match channels[c]? with
  | none => .error .channelIndexError
  | some ch =>
    match ch[i]? with
    | none => .error .sampleIndexError
    | some v => .ok v

/-- The (point, channel) index pairs of the nested emission loop, for points
`start, start+1, ..., start+k-1`, channels `0,1,2,3` inside each point. -/
def pairsFrom (start : ℕ) : ℕ → List (ℕ × ℕ)
  | 0 => []
  | k + 1 => [(start, 0), (start, 1), (start, 2), (start, 3)] ++ pairsFrom (start + 1) k

/-- Emission order of the nested `for i_point in 0..n: for i_channel in 0..4` loop. -/
def pointChannelPairs (n : ℕ) : List (ℕ × ℕ) := pairsFrom 0 n

/-- The generator's emission loop: yields a record per (point, channel) pair
until the first failing sample lookup, which aborts the loop with its error. -/
def emitAll (channels : List (List ℚ)) (f : ℕ × ℕ → ℚ → Record) :
    List (ℕ × ℕ) → List Record × Option IngestError
  | [] => ([], none)
  | ic :: rest =>
    match getSample channels ic.2 ic.1 with
    | .error e => ([], some e)
    | .ok raw =>
      let out := emitAll channels f rest
      (f ic raw :: out.1, out.2)

/-- One iteration of the ingestion loop: given the time-zone offset, the loop
state and a packet, produce the records emitted for this packet, the error
aborting the generator (if any), and the state left behind. -/
def processPacket (tz : ℚ) (s : IngestState) (p : Packet) :
    List Record × Option IngestError × IngestState :=
  match V_UNIT_SCALE p.units with
  | none => ([], some .unknownUnit, s)
  | some v_coef =>
    let medtronic_timestamp := p.timestampSeconds
    let unix_timestamp := MEDTRONIC_EPOCH + medtronic_timestamp - tz
    let mts_prev := s.medtronic_timestamp_prev.getD medtronic_timestamp
    let rs := rateUpdate s.sample_rate s.ticks_per_point p.sampleRate
    let resync := resyncNeeded s.t_chunk_start medtronic_timestamp mts_prev
    let t_chunk_start := if resync then unix_timestamp else s.t_chunk_start.getD 0
    let stt0 : ℤ := if resync then 0 else s.system_tick_time
    let stp0 : ℤ := if resync then p.systemTick else (s.system_tick_prev.getD 0)
    let system_tick_end := p.systemTick
    let ticks_elapsed := (system_tick_end - stp0) % SYSTEM_TICK_CLOCK
    let system_tick_time := stt0 + ticks_elapsed
    let sMid : IngestState :=
      { medtronic_timestamp_prev := some mts_prev
        sample_rate := rs.1
        system_tick_time := system_tick_time
        system_tick_prev := if resync then some p.systemTick else s.system_tick_prev
        t_chunk_start := some t_chunk_start
        ticks_per_point := rs.2
        packet_number_prev := some (s.packet_number_prev.getD p.dataTypeSequence) }
    match p.channels[0]? with
    | none => ([], some .channelIndexError, sMid)
    | some ch0 =>
      match rs.2 with
      | none => ([], some .rateUnset, sMid)
      | some tpp =>
        let n : ℕ := ch0.length
        let system_tick_start : ℚ := (system_tick_time : ℚ) - ((n : ℚ) - 1) * tpp
        let out := emitAll p.channels
          (fun ic raw =>
            (t_chunk_start + (system_tick_start + (ic.1 : ℚ) * tpp) * SYSTEM_TICK_DURATION,
             ic.2, raw * v_coef))
          (pointChannelPairs n)
        match out.2 with
        | some e => (out.1, some e, sMid)
        | none =>
          (out.1, none,
            { sMid with
              system_tick_prev := some system_tick_end
              packet_number_prev := some p.dataTypeSequence
              medtronic_timestamp_prev := some medtronic_timestamp })

/-- The stream driver: fold the loop over packets in arrival order,
concatenating emitted records and stopping at the first error. -/
def runStream (tz : ℚ) (s : IngestState) : List Packet → List Record × Option IngestError
  | [] => ([], none)
  | p :: ps =>
    let out := processPacket tz s p
    match out.2.1 with
    | some e => (out.1, some e)
    | none =>
      let rest := runStream tz out.2.2 ps
      (out.1 ++ rest.1, rest.2)

/-- The state after one packet (the third component of `processPacket`). -/
def stepSt (tz : ℚ) (s : IngestState) (p : Packet) : IngestState :=
  (processPacket tz s p).2.2

/-- The state after a list of packets. -/
def statesAfter (tz : ℚ) (s : IngestState) (ps : List Packet) : IngestState :=
  ps.foldl (stepSt tz) s

/-- Per-packet record blocks of a packet sequence (errors ignored; used for
in-chunk statements, where hypotheses rule errors out). -/
def chunkRecords (tz : ℚ) (s : IngestState) : List Packet → List (List Record)
  | [] => []
  | p :: ps => (processPacket tz s p).1 :: chunkRecords tz (stepSt tz s p) ps

/-- Number of points in a packet: the length of the first channel's value list. -/
def pN (p : Packet) : ℕ := (p.channels.headD []).length

/-- A packet the emission loop can process in full: at least the four channels
the inner loop indexes, at least one point, and equal-length channels. -/
def packetWF (p : Packet) : Prop :=
  4 ≤ p.channels.length ∧ 1 ≤ pN p ∧ ∀ ch ∈ p.channels, ch.length = pN p

/-- The previous coarse timestamp used by the drift check (the packet's own
timestamp on the very first packet). -/
def mtsPrevOf (s : IngestState) (p : Packet) : ℚ :=
  s.medtronic_timestamp_prev.getD p.timestampSeconds

/-- Whether processing `p` in state `s` re-syncs. -/
def resyncOf (s : IngestState) (p : Packet) : Bool :=
  resyncNeeded s.t_chunk_start p.timestampSeconds (mtsPrevOf s p)

/-- The chunk origin in effect while processing `p` in state `s`. -/
def chunkStartOf (tz : ℚ) (s : IngestState) (p : Packet) : ℚ :=
  if resyncOf s p then MEDTRONIC_EPOCH + p.timestampSeconds - tz
  else s.t_chunk_start.getD 0

/-- The accumulated tick count at the end of packet `p` processed in state `s`. -/
def sttOf (s : IngestState) (p : Packet) : ℤ :=
  (if resyncOf s p then 0 else s.system_tick_time) +
    (p.systemTick - (if resyncOf s p then p.systemTick else s.system_tick_prev.getD 0))
      % SYSTEM_TICK_CLOCK

/-- The timestamp the loop assigns to point `i` of packet `p` processed in
state `s`, with `tpp` the ticks-per-point in effect. -/
def pointTime (tz : ℚ) (s : IngestState) (p : Packet) (tpp : ℚ) (i : ℕ) : ℚ :=
  chunkStartOf tz s p +
    (((sttOf s p : ℚ) - ((pN p : ℚ) - 1) * tpp) + (i : ℚ) * tpp) * SYSTEM_TICK_DURATION

/-- The wrapped tick delta against the previous packet's tick (the delta the
loop adds when no re-sync happens). -/
def elapsedOf (s : IngestState) (p : Packet) : ℤ :=
  (p.systemTick - s.system_tick_prev.getD 0) % SYSTEM_TICK_CLOCK

/-- The wall-clock time of the current accumulated tick count: the upper
bound of every timestamp emitted so far in the current chunk. -/
def hiTime (s : IngestState) : ℚ :=
  s.t_chunk_start.getD 0 + (s.system_tick_time : ℚ) * SYSTEM_TICK_DURATION

/-- A step that stays inside the current chunk and emits in full: known unit,
an established chunk and previous packet, drift below 5 seconds, a positive
ticks-per-point, a well-formed packet, and a tick delta exceeding the packet's
own sample span. -/
def StepOK (s : IngestState) (p : Packet) : Prop :=
  (V_UNIT_SCALE p.units).isSome ∧
  s.t_chunk_start.isSome ∧
  s.medtronic_timestamp_prev.isSome ∧
  s.system_tick_prev.isSome ∧
  |p.timestampSeconds - mtsPrevOf s p| < 5 ∧
  (tppOf s p).isSome ∧
  0 < (tppOf s p).getD 0 ∧
  packetWF p ∧
  ((pN p : ℚ) - 1) * (tppOf s p).getD 0 < ((elapsedOf s p : ℤ) : ℚ)

/-- Every packet of the list is an in-chunk step from the state reached so far. -/
def ChunkOK (tz : ℚ) : IngestState → List Packet → Prop
  | _, [] => True
  | s, p :: ps => StepOK s p ∧ ChunkOK tz (stepSt tz s p) ps

/-- Two packets that agree on every field except the sequence number. -/
def pktSameExceptSeq (p q : Packet) : Prop :=
  p.units = q.units ∧ p.sampleRate = q.sampleRate ∧
  p.timestampSeconds = q.timestampSeconds ∧ p.systemTick = q.systemTick ∧
  p.channels = q.channels

/-- Two loop states that agree on every field except the previous
sequence number. -/
def stEquiv (s t : IngestState) : Prop :=
  s.medtronic_timestamp_prev = t.medtronic_timestamp_prev ∧
  s.sample_rate = t.sample_rate ∧
  s.system_tick_time = t.system_tick_time ∧
  s.system_tick_prev = t.system_tick_prev ∧
  s.t_chunk_start = t.t_chunk_start ∧
  s.ticks_per_point = t.ticks_per_point

section Fixtures

/-- Fixture: first packet of the end-to-end scenario (§8 of the spec):
volts, rate code 0, timestamp 1000.0, tick 100, two points per channel. -/
def pktA : Packet :=
  { units := "volts", sampleRate := 0, dataTypeSequence := 1,
    timestampSeconds := 1000, systemTick := 100,
    channels := [[1, 2], [1, 2], [1, 2], [1, 2]] }

/-- Fixture: second packet of the end-to-end scenario: timestamp 1000.5,
tick 140, one point per channel. -/
def pktB : Packet :=
  { units := "volts", sampleRate := 0, dataTypeSequence := 2,
    timestampSeconds := 1000.5, systemTick := 140,
    channels := [[3], [3], [3], [3]] }

/-- Fixture: a mid-chunk state whose previous tick sits near the 16-bit
wraparound boundary. -/
def stWrap : IngestState :=
  { medtronic_timestamp_prev := some 1000
    sample_rate := some 0
    system_tick_time := 7
    system_tick_prev := some 65500
    t_chunk_start := some 951869800
    ticks_per_point := some 40
    packet_number_prev := some 1 }

/-- Fixture: a packet whose tick 10 follows `stWrap`'s previous tick 65500
across the wraparound. -/
def pktWrap : Packet :=
  { units := "volts", sampleRate := 0, dataTypeSequence := 2,
    timestampSeconds := 1000.5, systemTick := 10,
    channels := [[9], [9], [9], [9]] }

/-- Fixture: drift of exactly 5 seconds from `stWrap`'s previous timestamp. -/
def pktDrift5 : Packet :=
  { units := "volts", sampleRate := 0, dataTypeSequence := 2,
    timestampSeconds := 1005, systemTick := 300,
    channels := [[4], [4], [4], [4]] }

/-- Fixture: drift of 4.999999 seconds from `stWrap`'s previous timestamp. -/
def pktDrift4999999 : Packet :=
  { units := "volts", sampleRate := 0, dataTypeSequence := 2,
    timestampSeconds := 1004.999999, systemTick := 300,
    channels := [[4], [4], [4], [4]] }

/-- Fixture: a single-point packet at timestamp 1000, tick 100. -/
def pktQ1 : Packet :=
  { units := "volts", sampleRate := 0, dataTypeSequence := 1,
    timestampSeconds := 1000, systemTick := 100,
    channels := [[5], [5], [5], [5]] }

/-- Fixture: a second packet with the same device timestamp and the same
hardware tick as `pktQ1` (no re-sync, zero tick delta). -/
def pktQ2 : Packet :=
  { units := "volts", sampleRate := 0, dataTypeSequence := 2,
    timestampSeconds := 1000, systemTick := 100,
    channels := [[6], [6], [6], [6]] }

/-- Fixture: a packet declaring its samples in microvolts. -/
def pktMicro : Packet :=
  { units := "microvolts", sampleRate := 0, dataTypeSequence := 1,
    timestampSeconds := 1000, systemTick := 100,
    channels := [[7], [7], [7], [7]] }

/-- Fixture: a packet declaring its samples in kilovolts. -/
def pktKilo : Packet :=
  { units := "kilovolts", sampleRate := 0, dataTypeSequence := 1,
    timestampSeconds := 1000, systemTick := 100,
    channels := [[7], [7], [7], [7]] }

/-- Fixture: a packet with an unrecognized unit tag. -/
def pktBadUnit : Packet :=
  { units := "nanovolts", sampleRate := 0, dataTypeSequence := 1,
    timestampSeconds := 1000, systemTick := 100,
    channels := [[7], [7], [7], [7]] }

/-- Fixture: `pktA` with a different sequence number. -/
def pktASeq9 : Packet :=
  { units := "volts", sampleRate := 0, dataTypeSequence := 9,
    timestampSeconds := 1000, systemTick := 100,
    channels := [[1, 2], [1, 2], [1, 2], [1, 2]] }

/-- Fixture: a packet carrying only three channels. -/
def pkt3ch : Packet :=
  { units := "volts", sampleRate := 0, dataTypeSequence := 1,
    timestampSeconds := 1000, systemTick := 100,
    channels := [[1], [1], [1]] }

/-- Fixture: an established mid-chunk state (as left by `pktA` from the start
state). -/
def stChunk : IngestState :=
  { medtronic_timestamp_prev := some 1000
    sample_rate := some 0
    system_tick_time := 0
    system_tick_prev := some 100
    t_chunk_start := some 951869800
    ticks_per_point := some 40
    packet_number_prev := some 1 }

/-- Fixture: a third packet continuing the chunk with a healthy tick advance. -/
def pktC : Packet :=
  { units := "volts", sampleRate := 0, dataTypeSequence := 3,
    timestampSeconds := 1001, systemTick := 260,
    channels := [[1, 2], [1, 2], [1, 2], [1, 2]] }

end Fixtures

end RCS

namespace RCS

/-! ## Basic lemmas about the embedded loop -/

lemma processPacket_unknown (tz : ℚ) (s : IngestState) (p : Packet)
    (h : V_UNIT_SCALE p.units = none) :
    processPacket tz s p = ([], some .unknownUnit, s) := by
  simp only [processPacket, h]

lemma pairsFrom_length (start k : ℕ) : (pairsFrom start k).length = 4 * k := by
  induction k generalizing start with
  | zero => rfl
  | succ k ih => simp [pairsFrom, ih]; omega

lemma pairsFrom_mem {start k : ℕ} {ic : ℕ × ℕ} (h : ic ∈ pairsFrom start k) :
    start ≤ ic.1 ∧ ic.1 < start + k ∧ ic.2 < 4 := by
  induction k generalizing start with
  | zero => simp [pairsFrom] at h
  | succ k ih =>
    simp only [pairsFrom, List.mem_append, List.mem_cons] at h
    rcases h with (rfl | rfl | rfl | rfl | h0) | h
    · exact ⟨le_refl _, by omega, by omega⟩
    · exact ⟨le_refl _, by omega, by omega⟩
    · exact ⟨le_refl _, by omega, by omega⟩
    · exact ⟨le_refl _, by omega, by omega⟩
    · simp at h0
    · rcases ih h with ⟨h1, h2, h3⟩
      exact ⟨by omega, by omega, h3⟩

lemma pairsFrom_getElem (start : ℕ) :
    ∀ (k j : ℕ), j < 4 * k → (pairsFrom start k)[j]? = some (start + j / 4, j % 4) := by
  intro k
  induction k generalizing start with
  | zero => intro j hj; omega
  | succ k ih =>
    intro j hj
    by_cases h4 : j < 4
    · interval_cases j <;> simp [pairsFrom]
    · have hlen : ([(start, 0), (start, 1), (start, 2), (start, 3)] : List (ℕ × ℕ)).length = 4 := rfl
      have : (pairsFrom start (k + 1))[j]? = (pairsFrom (start + 1) k)[j - 4]? := by
        simp only [pairsFrom]
        rw [List.getElem?_append_right (by omega)]
        simp
      rw [this, ih (start + 1) (j - 4) (by omega)]
      congr 1
      have : (start + 1) + (j - 4) / 4 = start + j / 4 := by omega
      rw [this]
      congr 1
      omega

lemma getSample_ok (p : Packet) (hWF : packetWF p) {i c : ℕ}
    (hi : i < pN p) (hc : c < 4) :
    ∃ v, getSample p.channels c i = Except.ok v := by
  obtain ⟨hlen, hn, hch⟩ := hWF
  have hc' : c < p.channels.length := by omega
  have hch0 : p.channels[c]? = some p.channels[c] := List.getElem?_eq_getElem hc'
  have hmem : p.channels[c] ∈ p.channels := List.getElem_mem hc'
  have hclen : p.channels[c].length = pN p := hch _ hmem
  have hi' : i < p.channels[c].length := by omega
  refine ⟨p.channels[c][i], ?_⟩
  simp only [getSample, hch0]
  rw [List.getElem?_eq_getElem hi']

lemma emitAll_ok (channels : List (List ℚ)) (f : ℕ × ℕ → ℚ → Record) :
    ∀ l : List (ℕ × ℕ), (∀ ic ∈ l, ∃ v, getSample channels ic.2 ic.1 = Except.ok v) →
    emitAll channels f l =
      (l.map (fun ic => f ic ((getSample channels ic.2 ic.1).toOption.getD 0)), none) := by
  intro l
  induction l with
  | nil => intro _; rfl
  | cons ic rest ih =>
    intro h
    obtain ⟨v, hv⟩ := h ic (List.mem_cons_self _ _)
    simp only [emitAll, hv, List.map_cons, ih (fun x hx => h x (List.mem_cons_of_mem _ hx))]
    simp [Except.toOption, hv]

lemma emitAll_mem {channels : List (List ℚ)} {f : ℕ × ℕ → ℚ → Record} :
    ∀ {l : List (ℕ × ℕ)} {r : Record}, r ∈ (emitAll channels f l).1 →
      ∃ ic ∈ l, ∃ v, r = f ic v := by
  intro l
  induction l with
  | nil => intro r h; simp [emitAll] at h
  | cons ic rest ih =>
    intro r h
    simp only [emitAll] at h
    cases hg : getSample channels ic.2 ic.1 with
    | error e => rw [hg] at h; simp at h
    | ok v =>
      rw [hg] at h
      simp at h
      rcases h with rfl | h
      · exact ⟨ic, List.mem_cons_self _ _, v, rfl⟩
      · obtain ⟨ic2, hmem, v2, rfl⟩ := ih h
        exact ⟨ic2, List.mem_cons_of_mem _ hmem, v2, rfl⟩

lemma processPacket_eq (tz : ℚ) (s : IngestState) (p : Packet) (v_coef tpp : ℚ)
    (hv : V_UNIT_SCALE p.units = some v_coef)
    (ht : tppOf s p = some tpp)
    (hWF : packetWF p) :
    processPacket tz s p =
      ((pointChannelPairs (pN p)).map (fun ic =>
          (pointTime tz s p tpp ic.1, ic.2,
           ((getSample p.channels ic.2 ic.1).toOption.getD 0) * v_coef)),
       none,
       { medtronic_timestamp_prev := some p.timestampSeconds
         sample_rate := (rateUpdate s.sample_rate s.ticks_per_point p.sampleRate).1
         system_tick_time := sttOf s p
         system_tick_prev := some p.systemTick
         t_chunk_start := some (chunkStartOf tz s p)
         ticks_per_point := some tpp
         packet_number_prev := some p.dataTypeSequence }) := by
  obtain ⟨hlen4, hn1, hch⟩ := hWF
  obtain ⟨c0, cs, hpc⟩ : ∃ c0 cs, p.channels = c0 :: cs := by
    cases hp : p.channels with
    | nil => rw [hp] at hlen4; simp at hlen4
    | cons a l => exact ⟨a, l, rfl⟩
  have hpn : pN p = c0.length := by simp [pN, hpc]
  have hallok : ∀ ic ∈ pointChannelPairs c0.length,
      ∃ v, getSample p.channels ic.2 ic.1 = Except.ok v := by
    intro ic hic
    have hm := pairsFrom_mem (by simpa [pointChannelPairs] using hic)
    exact getSample_ok p ⟨hlen4, hn1, hch⟩ (by omega) (by omega)
  have ht2 : (rateUpdate s.sample_rate s.ticks_per_point p.sampleRate).2 = some tpp := ht
  simp only [processPacket, hv, hpc, List.getElem?_cons_zero, ht2]
  rw [← hpc]
  rw [emitAll_ok _ _ _ hallok]
  simp only [← hpc, hpn, pointTime, chunkStartOf, sttOf, resyncOf, mtsPrevOf,
    resyncNeeded]

lemma stepSt_fields (tz : ℚ) (s : IngestState) (p : Packet) (v_coef : ℚ)
    (hv : V_UNIT_SCALE p.units = some v_coef) :
    (stepSt tz s p).t_chunk_start = some (chunkStartOf tz s p) ∧
    (stepSt tz s p).system_tick_time = sttOf s p ∧
    (stepSt tz s p).sample_rate = (rateUpdate s.sample_rate s.ticks_per_point p.sampleRate).1 ∧
    (stepSt tz s p).ticks_per_point = tppOf s p ∧
    (resyncOf s p = true → (stepSt tz s p).system_tick_prev = some p.systemTick) := by
  unfold stepSt
  cases hres : resyncNeeded s.t_chunk_start p.timestampSeconds
      (s.medtronic_timestamp_prev.getD p.timestampSeconds) with
  | true =>
    simp only [processPacket, hv, hres]
    repeat' split
    all_goals simp_all [chunkStartOf, sttOf, resyncOf, mtsPrevOf, tppOf]
  | false =>
    simp only [processPacket, hv, hres]
    repeat' split
    all_goals simp_all [chunkStartOf, sttOf, resyncOf, mtsPrevOf, tppOf]

end RCS

namespace RCS

/-- Claim C1: between consecutive packets of one chunk the loop adds exactly
(current_tick - last_tick) mod 65536 — 16-bit wraparound subtraction — to the
accumulated tick count; in particular (10 - 65500) mod 65536 = 46. -/
theorem c1_wraparound_tick_delta (tz : ℚ) (s : IngestState) (p : Packet) (last : ℤ)
    (hv : (V_UNIT_SCALE p.units).isSome)
    (hchunk : s.t_chunk_start.isSome)
    (hdrift : |p.timestampSeconds - mtsPrevOf s p| < 5)
    (hlast : s.system_tick_prev = some last) :
    (stepSt tz s p).system_tick_time =
      s.system_tick_time + (p.systemTick - last) % SYSTEM_TICK_CLOCK ∧
    ((10 : ℤ) - 65500) % SYSTEM_TICK_CLOCK = 46 := by
  obtain ⟨t0, ht0⟩ := Option.isSome_iff_exists.mp hchunk
  obtain ⟨vc, hvc⟩ := Option.isSome_iff_exists.mp hv
  have hres : resyncOf s p = false := by
    simp [resyncOf, resyncNeeded, ht0, not_le.mpr hdrift, mtsPrevOf]
    simpa [mtsPrevOf] using not_le.mpr hdrift
  refine ⟨?_, by decide⟩
  rw [(stepSt_fields tz s p vc hvc).2.1]
  simp [sttOf, hres, hlast]

/-- Witness for claim C1: the wraparound state `stWrap` (previous tick 65500)
and packet `pktWrap` (tick 10) satisfy the hypotheses, and the accumulator
advances by 46. -/
theorem c1_wraparound_tick_delta_witness :
    (V_UNIT_SCALE pktWrap.units).isSome ∧
    stWrap.t_chunk_start.isSome ∧
    |pktWrap.timestampSeconds - mtsPrevOf stWrap pktWrap| < 5 ∧
    stWrap.system_tick_prev = some 65500 ∧
    ((stepSt 0 stWrap pktWrap).system_tick_time =
        stWrap.system_tick_time + (pktWrap.systemTick - 65500) % SYSTEM_TICK_CLOCK ∧
      ((10 : ℤ) - 65500) % SYSTEM_TICK_CLOCK = 46) := by
  have hv : (V_UNIT_SCALE pktWrap.units).isSome := rfl
  have hchunk : stWrap.t_chunk_start.isSome := rfl
  have hdrift : |pktWrap.timestampSeconds - mtsPrevOf stWrap pktWrap| < 5 := by
    norm_num [pktWrap, stWrap, mtsPrevOf, abs_lt]
  exact ⟨hv, hchunk, hdrift, rfl,
    c1_wraparound_tick_delta 0 stWrap pktWrap 65500 hv hchunk hdrift rfl⟩

/-- Claim C2: a re-sync happens exactly on the first packet (no chunk started)
and on a coarse-timestamp drift of at least 5 seconds (boundary inclusive); it
sets the chunk origin to MEDTRONIC_EPOCH + timestamp - timezone, leaves the
accumulated tick count at 0 and stores the current hardware tick as the
previous tick; a drift below 5 leaves the chunk origin untouched. -/
theorem c2_resync_policy (tz : ℚ) (s : IngestState) (p : Packet)
    (hv : (V_UNIT_SCALE p.units).isSome) :
    (s.t_chunk_start = none →
      (stepSt tz s p).t_chunk_start = some (MEDTRONIC_EPOCH + p.timestampSeconds - tz) ∧
      (stepSt tz s p).system_tick_time = 0 ∧
      (stepSt tz s p).system_tick_prev = some p.systemTick) ∧
    (∀ m, s.medtronic_timestamp_prev = some m → s.t_chunk_start.isSome →
      (5 ≤ |p.timestampSeconds - m| →
        (stepSt tz s p).t_chunk_start = some (MEDTRONIC_EPOCH + p.timestampSeconds - tz) ∧
        (stepSt tz s p).system_tick_time = 0 ∧
        (stepSt tz s p).system_tick_prev = some p.systemTick) ∧
      (|p.timestampSeconds - m| < 5 →
        (stepSt tz s p).t_chunk_start = s.t_chunk_start)) := by
  obtain ⟨vc, hvc⟩ := Option.isSome_iff_exists.mp hv
  have hfields := stepSt_fields tz s p vc hvc
  constructor
  · intro hnone
    have hres : resyncOf s p = true := by
      simp [resyncOf, resyncNeeded, hnone]
    refine ⟨?_, ?_, hfields.2.2.2.2 hres⟩
    · rw [hfields.1]; simp [chunkStartOf, hres]
    · rw [hfields.2.1]; simp [sttOf, hres]
  · intro m hm hsome
    obtain ⟨t0, ht0⟩ := Option.isSome_iff_exists.mp hsome
    constructor
    · intro hge
      have hres : resyncOf s p = true := by
        simp [resyncOf, resyncNeeded, mtsPrevOf, hm, hge]
      refine ⟨?_, ?_, hfields.2.2.2.2 hres⟩
      · rw [hfields.1]; simp [chunkStartOf, hres]
      · rw [hfields.2.1]; simp [sttOf, hres]
    · intro hlt
      have hres : resyncOf s p = false := by
        simp [resyncOf, resyncNeeded, mtsPrevOf, hm, ht0, not_le.mpr hlt]
      rw [hfields.1]
      simp [chunkStartOf, hres, ht0]

/-- Witness for claim C2: from `stWrap`, a drift of exactly 5 seconds
(`pktDrift5`) re-syncs while a drift of 4.999999 seconds (`pktDrift4999999`)
keeps the chunk origin. -/
theorem c2_resync_policy_witness :
    (V_UNIT_SCALE pktDrift5.units).isSome ∧
    stWrap.medtronic_timestamp_prev = some 1000 ∧
    stWrap.t_chunk_start.isSome ∧
    5 ≤ |pktDrift5.timestampSeconds - (1000 : ℚ)| ∧
    ((stepSt 0 stWrap pktDrift5).t_chunk_start =
        some (MEDTRONIC_EPOCH + pktDrift5.timestampSeconds - 0) ∧
      (stepSt 0 stWrap pktDrift5).system_tick_time = 0 ∧
      (stepSt 0 stWrap pktDrift5).system_tick_prev = some pktDrift5.systemTick) ∧
    |pktDrift4999999.timestampSeconds - (1000 : ℚ)| < 5 ∧
    (stepSt 0 stWrap pktDrift4999999).t_chunk_start = stWrap.t_chunk_start := by
  have h5 : 5 ≤ |pktDrift5.timestampSeconds - (1000 : ℚ)| := by
    norm_num [pktDrift5]
  have h49 : |pktDrift4999999.timestampSeconds - (1000 : ℚ)| < 5 := by
    norm_num [pktDrift4999999, abs_lt]
  refine ⟨rfl, rfl, rfl, h5, ?_, h49, ?_⟩
  · exact ((c2_resync_policy 0 stWrap pktDrift5 rfl).2 1000 rfl rfl).1 h5
  · exact ((c2_resync_policy 0 stWrap pktDrift4999999 rfl).2 1000 rfl rfl).2 h49

end RCS

namespace RCS

/-- Claim C5: the unit scaler maps exactly the five tags volts, millivolts,
microvolts, kilovolts, megavolts to 1, 1/1000, 1/1000000, 1000, 1000000, fails
with unknownUnit on every other tag without emitting any record of the packet,
and concretely scales microvolt and kilovolt samples by 1e-6 and 1e3. -/
theorem c5_unit_scaler :
    V_UNIT_SCALE "volts" = some 1 ∧
    V_UNIT_SCALE "millivolts" = some (1 / 1000) ∧
    V_UNIT_SCALE "microvolts" = some (1 / 1000000) ∧
    V_UNIT_SCALE "kilovolts" = some 1000 ∧
    V_UNIT_SCALE "megavolts" = some 1000000 ∧
    (∀ u : String, u ≠ "volts" → u ≠ "millivolts" → u ≠ "microvolts" →
      u ≠ "kilovolts" → u ≠ "megavolts" → V_UNIT_SCALE u = none) ∧
    (∀ (tz : ℚ) (s : IngestState) (p : Packet), V_UNIT_SCALE p.units = none →
      processPacket tz s p = ([], some IngestError.unknownUnit, s)) ∧
    ((processPacket 0 initState pktMicro).1.map (fun r => r.2.2) =
      [7 * (1 / 1000000), 7 * (1 / 1000000), 7 * (1 / 1000000), 7 * (1 / 1000000)]) ∧
    ((processPacket 0 initState pktKilo).1.map (fun r => r.2.2) =
      [7 * 1000, 7 * 1000, 7 * 1000, 7 * 1000]) := by
  refine ⟨rfl, rfl, rfl, rfl, rfl, ?_, ?_, by rfl, by rfl⟩
  · intro u h1 h2 h3 h4 h5
    simp [V_UNIT_SCALE, h1, h2, h3, h4, h5]
  · intro tz s p hp
    exact processPacket_unknown tz s p hp

/-- Witness for claim C5: the unrecognized tag of `pktBadUnit` makes the loop
return no records, the unknownUnit error and an unchanged state. -/
theorem c5_unit_scaler_witness :
    V_UNIT_SCALE pktBadUnit.units = none ∧
    processPacket 0 initState pktBadUnit = ([], some IngestError.unknownUnit, initState) := by
  have hn : V_UNIT_SCALE pktBadUnit.units = none := rfl
  exact ⟨hn, c5_unit_scaler.2.2.2.2.2.2.1 0 initState pktBadUnit hn⟩

/-- Claim C6: the rate state recomputes sampling_freq = 250 * 2^code and
ticks_per_point = (1/sampling_freq) / SYSTEM_TICK_DURATION exactly when the
declared rate code differs from the stored one and is untouched otherwise; for
rate code 0 this gives 40 ticks per point and a 0.004-second sample spacing. -/
theorem c6_rate_state (tz : ℚ) (s : IngestState) (p : Packet)
    (hv : (V_UNIT_SCALE p.units).isSome) :
    (some p.sampleRate = s.sample_rate →
      (stepSt tz s p).sample_rate = s.sample_rate ∧
      (stepSt tz s p).ticks_per_point = s.ticks_per_point) ∧
    (some p.sampleRate ≠ s.sample_rate →
      (stepSt tz s p).sample_rate = some p.sampleRate ∧
      (stepSt tz s p).ticks_per_point =
        some (1 / (250 * 2 ^ p.sampleRate) / SYSTEM_TICK_DURATION)) ∧
    (1 / (250 * (2 : ℚ) ^ (0 : ℕ)) / SYSTEM_TICK_DURATION = 40) ∧
    ((40 : ℚ) * SYSTEM_TICK_DURATION = (0.004 : ℚ)) := by
  obtain ⟨vc, hvc⟩ := Option.isSome_iff_exists.mp hv
  have hfields := stepSt_fields tz s p vc hvc
  refine ⟨?_, ?_, by norm_num [SYSTEM_TICK_DURATION], by norm_num [SYSTEM_TICK_DURATION]⟩
  · intro h
    constructor
    · rw [hfields.2.2.1]; simp [rateUpdate, h]
    · rw [hfields.2.2.2.1]; simp [tppOf, rateUpdate, h]
  · intro h
    constructor
    · rw [hfields.2.2.1]; simp [rateUpdate, h]
    · rw [hfields.2.2.2.1]; simp [tppOf, rateUpdate, h]

/-- Witness for claim C6: the first packet `pktA` (rate code 0) differs from
the unset stored code, so the rate state recomputes. -/
theorem c6_rate_state_witness :
    (V_UNIT_SCALE pktA.units).isSome ∧
    some pktA.sampleRate ≠ initState.sample_rate ∧
    ((stepSt 0 initState pktA).sample_rate = some pktA.sampleRate ∧
      (stepSt 0 initState pktA).ticks_per_point =
        some (1 / (250 * 2 ^ pktA.sampleRate) / SYSTEM_TICK_DURATION)) := by
  have hne : some pktA.sampleRate ≠ initState.sample_rate := by
    simp [pktA, initState]
  exact ⟨rfl, hne, (c6_rate_state 0 initState pktA rfl).2.1 hne⟩

end RCS

namespace RCS

lemma processPacket_getElem (tz : ℚ) (s : IngestState) (p : Packet) (v_coef tpp : ℚ)
    (hv : V_UNIT_SCALE p.units = some v_coef)
    (ht : tppOf s p = some tpp)
    (hWF : packetWF p) {i c : ℕ} (hi : i < pN p) (hc : c < 4) :
    (processPacket tz s p).1[4 * i + c]? =
      some (pointTime tz s p tpp i, c,
        ((getSample p.channels c i).toOption.getD 0) * v_coef) := by
  rw [processPacket_eq tz s p v_coef tpp hv ht hWF]
  simp only [List.getElem?_map, pointChannelPairs]
  rw [pairsFrom_getElem 0 (pN p) (4 * i + c) (by omega)]
  have h1 : 0 + (4 * i + c) / 4 = i := by omega
  have h2 : (4 * i + c) % 4 = c := by omega
  rw [h1, h2]
  rfl

/-- Claim C4: with n the first channel's sample count, sample i of a packet is
stamped chunk_origin + (accumulated_ticks - (n - 1 - i) * ticks_per_point) *
SYSTEM_TICK_DURATION: the header tick marks the end of the acquisition window
and each sample advances by ticks_per_point ticks. -/
theorem c4_per_sample_timestamps (tz : ℚ) (s : IngestState) (p : Packet) (v_coef tpp : ℚ)
    (hv : V_UNIT_SCALE p.units = some v_coef)
    (ht : tppOf s p = some tpp)
    (hWF : packetWF p) :
    ∀ i c, i < pN p → c < 4 →
      ((processPacket tz s p).1.map Prod.fst)[4 * i + c]? =
        some ((stepSt tz s p).t_chunk_start.getD 0 +
          (((stepSt tz s p).system_tick_time : ℚ) - ((pN p : ℚ) - 1 - (i : ℚ)) * tpp) *
            SYSTEM_TICK_DURATION) := by
  intro i c hi hc
  rw [List.getElem?_map, processPacket_getElem tz s p v_coef tpp hv ht hWF hi hc]
  simp only [Option.map_some']
  congr 1
  obtain ⟨vc2, hvc2⟩ : ∃ vc2, V_UNIT_SCALE p.units = some vc2 := ⟨v_coef, hv⟩
  have hfields := stepSt_fields tz s p v_coef hv
  rw [hfields.1, hfields.2.1]
  simp only [Option.getD_some]
  unfold pointTime
  ring

/-- Witness for claim C4: sample 1 of `pktA` processed from the start state is
stamped by the back-computed formula. -/
theorem c4_per_sample_timestamps_witness :
    V_UNIT_SCALE pktA.units = some 1 ∧
    tppOf initState pktA = some 40 ∧
    packetWF pktA ∧
    1 < pN pktA ∧
    ((processPacket 0 initState pktA).1.map Prod.fst)[4 * 1 + 0]? =
      some ((stepSt 0 initState pktA).t_chunk_start.getD 0 +
        (((stepSt 0 initState pktA).system_tick_time : ℚ) - ((pN pktA : ℚ) - 1 - (1 : ℚ)) * 40) *
          SYSTEM_TICK_DURATION) := by
  have hWF : packetWF pktA := by
    unfold packetWF pN pktA
    refine ⟨by decide, by decide, by decide⟩
  have htpp : tppOf initState pktA = some 40 := by decide
  exact ⟨rfl, htpp, hWF, by decide,
    c4_per_sample_timestamps 0 initState pktA 1 40 rfl htpp hWF 1 0 (by decide)
      (by norm_num)⟩

end RCS

namespace RCS

/-- Claim C9: a packet that triggers a re-sync computes its own tick delta as
(tick - tick) mod 65536 = 0, ends with accumulated ticks 0, stamps its last
sample exactly at the chunk origin, and stamps every earlier sample strictly
before the chunk origin. -/
theorem c9_resync_packet_anchor (tz : ℚ) (s : IngestState) (p : Packet) (v_coef tpp : ℚ)
    (hv : V_UNIT_SCALE p.units = some v_coef)
    (ht : tppOf s p = some tpp)
    (htpp : 0 < tpp)
    (hWF : packetWF p)
    (hres : resyncOf s p = true) :
    (p.systemTick - p.systemTick) % SYSTEM_TICK_CLOCK = 0 ∧
    (stepSt tz s p).system_tick_time = 0 ∧
    ((processPacket tz s p).1.map Prod.fst)[4 * (pN p - 1)]? =
      some (MEDTRONIC_EPOCH + p.timestampSeconds - tz) ∧
    (∀ i c, i < pN p - 1 → c < 4 →
      ∀ t, ((processPacket tz s p).1.map Prod.fst)[4 * i + c]? = some t →
        t < MEDTRONIC_EPOCH + p.timestampSeconds - tz) := by
  have hstt : sttOf s p = 0 := by simp [sttOf, hres]
  have hcs : chunkStartOf tz s p = MEDTRONIC_EPOCH + p.timestampSeconds - tz := by
    simp [chunkStartOf, hres]
  have hn1 : 1 ≤ pN p := hWF.2.1
  have hdur : (0 : ℚ) < SYSTEM_TICK_DURATION := by norm_num [SYSTEM_TICK_DURATION]
  refine ⟨by simp, ?_, ?_, ?_⟩
  · rw [(stepSt_fields tz s p v_coef hv).2.1, hstt]
  · have h40 : 4 * (pN p - 1) = 4 * (pN p - 1) + 0 := by omega
    rw [h40, List.getElem?_map,
      processPacket_getElem tz s p v_coef tpp hv ht hWF (by omega) (by omega)]
    simp only [Option.map_some']
    congr 1
    unfold pointTime
    rw [hstt, hcs]
    have hcast : ((pN p - 1 : ℕ) : ℚ) = (pN p : ℚ) - 1 := by
      push_cast [hn1]
      ring
    rw [hcast]
    push_cast
    ring
  · intro i c hi hc t hget
    rw [List.getElem?_map,
      processPacket_getElem tz s p v_coef tpp hv ht hWF (by omega) hc] at hget
    simp only [Option.map_some', Option.some_inj] at hget
    subst hget
    unfold pointTime
    rw [hstt, hcs]
    have hiq : (i : ℚ) < (pN p : ℚ) - 1 := by
      have : (i : ℚ) + 1 < (pN p : ℚ) := by exact_mod_cast (by omega : i + 1 < pN p)
      linarith
    have hneg : ((0 : ℚ) - ((pN p : ℚ) - 1) * tpp + (i : ℚ) * tpp) < 0 := by
      have := mul_lt_mul_of_pos_right hiq htpp
      linarith
    have := mul_neg_of_neg_of_pos hneg hdur
    push_cast
    linarith

end RCS

namespace RCS

/-- Witness for claim C9: the first packet `pktA` re-syncs; its second (last)
sample is stamped at the chunk origin and its first sample before it. -/
theorem c9_resync_packet_anchor_witness :
    V_UNIT_SCALE pktA.units = some 1 ∧
    tppOf initState pktA = some 40 ∧
    (0 : ℚ) < 40 ∧
    packetWF pktA ∧
    resyncOf initState pktA = true ∧
    ((pktA.systemTick - pktA.systemTick) % SYSTEM_TICK_CLOCK = 0 ∧
      (stepSt 0 initState pktA).system_tick_time = 0 ∧
      ((processPacket 0 initState pktA).1.map Prod.fst)[4 * (pN pktA - 1)]? =
        some (MEDTRONIC_EPOCH + pktA.timestampSeconds - 0) ∧
      (∀ i c, i < pN pktA - 1 → c < 4 →
        ∀ t, ((processPacket 0 initState pktA).1.map Prod.fst)[4 * i + c]? = some t →
          t < MEDTRONIC_EPOCH + pktA.timestampSeconds - 0)) := by
  have hWF : packetWF pktA := by
    unfold packetWF pN pktA
    refine ⟨by decide, by decide, by decide⟩
  have htpp : tppOf initState pktA = some 40 := by decide
  have hres : resyncOf initState pktA = true := by decide
  exact ⟨rfl, htpp, by norm_num, hWF, hres,
    c9_resync_packet_anchor 0 initState pktA 1 40 rfl htpp (by norm_num) hWF hres⟩

lemma processPacket_channel_lt (tz : ℚ) (s : IngestState) (p : Packet) (r : Record)
    (hr : r ∈ (processPacket tz s p).1) : r.2.1 < 4 := by
  simp only [processPacket] at hr
  split at hr
  · simp at hr
  · split at hr
    · simp at hr
    · split at hr
      · simp at hr
      · split at hr
        all_goals
          obtain ⟨ic, hic, v, rfl⟩ := emitAll_mem hr
          have hm := pairsFrom_mem (by simpa [pointChannelPairs] using hic)
          simpa using hm.2.2

end RCS

namespace RCS

lemma emitAll_short (channels : List (List ℚ)) (f : ℕ × ℕ → ℚ → Record)
    (hlen : channels.length < 4)
    (hne : ∀ ch ∈ channels, 1 ≤ ch.length) (m : ℕ) :
    (emitAll channels f (pointChannelPairs (m + 1))).2 = some IngestError.channelIndexError ∧
    (emitAll channels f (pointChannelPairs (m + 1))).1.length = channels.length := by
  have hpc : pointChannelPairs (m + 1) =
      (0, 0) :: (0, 1) :: (0, 2) :: (0, 3) :: pairsFrom 1 m := rfl
  rw [hpc]
  rcases channels with _ | ⟨a, _ | ⟨b, _ | ⟨c, _ | ⟨d, rest⟩⟩⟩⟩
  · simp [emitAll, getSample]
  · obtain ⟨x, xs, rfl⟩ : ∃ x xs, a = x :: xs := by
      rcases a with _ | ⟨x, xs⟩
      · have := hne [] (by simp)
        simp at this
      · exact ⟨x, xs, rfl⟩
    simp [emitAll, getSample]
  · obtain ⟨x, xs, rfl⟩ : ∃ x xs, a = x :: xs := by
      rcases a with _ | ⟨x, xs⟩
      · have := hne [] (by simp)
        simp at this
      · exact ⟨x, xs, rfl⟩
    obtain ⟨y, ys, rfl⟩ : ∃ y ys, b = y :: ys := by
      rcases b with _ | ⟨y, ys⟩
      · have := hne [] (by simp)
        simp at this
      · exact ⟨y, ys, rfl⟩
    simp [emitAll, getSample]
  · obtain ⟨x, xs, rfl⟩ : ∃ x xs, a = x :: xs := by
      rcases a with _ | ⟨x, xs⟩
      · have := hne [] (by simp)
        simp at this
      · exact ⟨x, xs, rfl⟩
    obtain ⟨y, ys, rfl⟩ : ∃ y ys, b = y :: ys := by
      rcases b with _ | ⟨y, ys⟩
      · have := hne [] (by simp)
        simp at this
      · exact ⟨y, ys, rfl⟩
    obtain ⟨z, zs, rfl⟩ : ∃ z zs, c = z :: zs := by
      rcases c with _ | ⟨z, zs⟩
      · have := hne [] (by simp)
        simp at this
      · exact ⟨z, zs, rfl⟩
    simp [emitAll, getSample]
  · simp at hlen
    omega

/-- Claim C10: the driver iterates channel indices 0,1,2,3 unconditionally —
every record's channel index is below 4, a packet with at least four
equal-length channels emits exactly 4 * n records with no error, and a packet
with fewer than four channels aborts with a channel index error after one
record per present channel (partial emission). -/
theorem c10_stream_driver_channels :
    (∀ (tz : ℚ) (s : IngestState) (p : Packet) (r : Record),
        r ∈ (processPacket tz s p).1 → r.2.1 < 4) ∧
    (∀ (tz : ℚ) (s : IngestState) (p : Packet) (v_coef tpp : ℚ),
        V_UNIT_SCALE p.units = some v_coef → tppOf s p = some tpp → packetWF p →
        (processPacket tz s p).1.length = 4 * pN p ∧ (processPacket tz s p).2.1 = none) ∧
    (∀ (tz : ℚ) (s : IngestState) (p : Packet) (v_coef tpp : ℚ),
        V_UNIT_SCALE p.units = some v_coef → tppOf s p = some tpp →
        p.channels.length < 4 → 1 ≤ pN p → (∀ ch ∈ p.channels, ch.length = pN p) →
        (processPacket tz s p).2.1 = some IngestError.channelIndexError ∧
        (processPacket tz s p).1.length = p.channels.length) := by
  refine ⟨processPacket_channel_lt, ?_, ?_⟩
  · intro tz s p v_coef tpp hv ht hWF
    rw [processPacket_eq tz s p v_coef tpp hv ht hWF]
    simp [pointChannelPairs, pairsFrom_length]
  · intro tz s p v_coef tpp hv ht hlen hn hch
    obtain ⟨c0, cs, hpc⟩ : ∃ c0 cs, p.channels = c0 :: cs := by
      rcases hp : p.channels with _ | ⟨c0, cs⟩
      · rw [hp] at hch
        unfold pN at hn
        rw [hp] at hn
        simp at hn
      · exact ⟨c0, cs, rfl⟩
    have hc0 : c0.length = pN p := hch c0 (by rw [hpc]; exact List.mem_cons_self _ _)
    obtain ⟨m, hm⟩ : ∃ m, c0.length = m + 1 := by
      refine ⟨c0.length - 1, ?_⟩
      omega
    have hne : ∀ ch ∈ p.channels, 1 ≤ ch.length := by
      intro ch hmem
      rw [hch ch hmem]
      omega
    have ht2 : (rateUpdate s.sample_rate s.ticks_per_point p.sampleRate).2 = some tpp := ht
    simp only [processPacket, hv, hpc, List.getElem?_cons_zero, ht2]
    rw [← hpc, hm]
    rw [(emitAll_short p.channels _ hlen hne m).1]
    exact ⟨rfl, (emitAll_short p.channels _ hlen hne m).2⟩

end RCS

namespace RCS

/-- Witness for claim C10: the three-channel packet `pkt3ch` aborts with a
channel index error after emitting three records. -/
theorem c10_stream_driver_channels_witness :
    V_UNIT_SCALE pkt3ch.units = some 1 ∧
    tppOf initState pkt3ch = some 40 ∧
    pkt3ch.channels.length < 4 ∧
    1 ≤ pN pkt3ch ∧
    (∀ ch ∈ pkt3ch.channels, ch.length = pN pkt3ch) ∧
    ((processPacket 0 initState pkt3ch).2.1 = some IngestError.channelIndexError ∧
      (processPacket 0 initState pkt3ch).1.length = pkt3ch.channels.length) := by
  have h1 : V_UNIT_SCALE pkt3ch.units = some 1 := rfl
  have h2 : tppOf initState pkt3ch = some 40 := by decide
  have h3 : pkt3ch.channels.length < 4 := by decide
  have h4 : 1 ≤ pN pkt3ch := by decide
  have h5 : ∀ ch ∈ pkt3ch.channels, ch.length = pN pkt3ch := by decide
  exact ⟨h1, h2, h3, h4, h5,
    c10_stream_driver_channels.2.2 0 initState pkt3ch 1 40 h1 h2 h3 h4 h5⟩

lemma processPacket_seq_indep (tz : ℚ) {s t : IngestState} {p q : Packet}
    (hs : stEquiv s t) (hpq : pktSameExceptSeq p q) :
    (processPacket tz s p).1 = (processPacket tz t q).1 ∧
    (processPacket tz s p).2.1 = (processPacket tz t q).2.1 ∧
    stEquiv (processPacket tz s p).2.2 (processPacket tz t q).2.2 := by
  obtain ⟨hu, hr, hts, htk, hchn⟩ := hpq
  obtain ⟨h1, h2, h3, h4, h5, h6⟩ := hs
  cases p with
  | mk pu pr pd pt pk pc =>
    cases q with
    | mk qu qr qd qt qk qc =>
      simp only at hu hr hts htk hchn
      subst hu
      subst hr
      subst hts
      subst htk
      subst hchn
      cases s with
      | mk s1 s2 s3 s4 s5 s6 s7 =>
        cases t with
        | mk t1 t2 t3 t4 t5 t6 t7 =>
          simp only at h1 h2 h3 h4 h5 h6
          subst h1
          subst h2
          subst h3
          subst h4
          subst h5
          subst h6
          simp only [processPacket]
          cases hV : V_UNIT_SCALE pu with
          | none => simp [stEquiv]
          | some vc =>
            simp only [hV]
            cases hC : pc[0]? with
            | none => simp [stEquiv]
            | some ch0 =>
              simp only [hC]
              cases hT : (rateUpdate s2 s6 pr).2 with
              | none => simp [stEquiv]
              | some tpp =>
                simp only [hT]
                cases hE : (emitAll pc
                    (fun ic raw =>
                      ((if resyncNeeded s5 pt (s1.getD pt) = true then
                          MEDTRONIC_EPOCH + pt - tz
                        else s5.getD 0) +
                        ((((if resyncNeeded s5 pt (s1.getD pt) = true then 0 else s3) +
                            (pk - (if resyncNeeded s5 pt (s1.getD pt) = true then pk
                              else s4.getD 0)) % SYSTEM_TICK_CLOCK : ℤ) : ℚ) -
                          ((ch0.length : ℚ) - 1) * tpp + (ic.1 : ℚ) * tpp) *
                          SYSTEM_TICK_DURATION,
                        ic.2, raw * vc))
                    (pointChannelPairs ch0.length)).2 with
                | none => simp only [hE]; simp [stEquiv]
                | some e => simp only [hE]; simp [stEquiv]

end RCS

namespace RCS

lemma runStream_seq_indep (tz : ℚ) :
    ∀ {ps qs : List Packet}, List.Forall₂ pktSameExceptSeq ps qs →
    ∀ {s t : IngestState}, stEquiv s t → runStream tz s ps = runStream tz t qs := by
  intro ps qs h
  induction h with
  | nil => intro s t _; rfl
  | @cons p q ps2 qs2 hpq hrest ih =>
    intro s t hst
    obtain ⟨hrec, herr, hst2⟩ := processPacket_seq_indep tz hst hpq
    simp only [runStream]
    rw [hrec, herr]
    cases hE : (processPacket tz t q).2.1 with
    | some e => simp only [hE]
    | none =>
      simp only [hE]
      rw [ih hst2]

/-- Claim C7: the emitted output is independent of packet sequence numbers —
two streams identical except for the dataTypeSequence fields produce identical
records and error status. -/
theorem c7_sequence_number_independent (tz : ℚ) (ps qs : List Packet)
    (h : List.Forall₂ pktSameExceptSeq ps qs) :
    runStream tz initState ps = runStream tz initState qs :=
  runStream_seq_indep tz h ⟨rfl, rfl, rfl, rfl, rfl, rfl⟩

/-- Witness for claim C7: changing `pktA`'s sequence number from 1 to 9 leaves
the stream output unchanged. -/
theorem c7_sequence_number_independent_witness :
    List.Forall₂ pktSameExceptSeq [pktA, pktB] [pktASeq9, pktB] ∧
    pktA.dataTypeSequence ≠ pktASeq9.dataTypeSequence ∧
    runStream 0 initState [pktA, pktB] = runStream 0 initState [pktASeq9, pktB] := by
  have hf : List.Forall₂ pktSameExceptSeq [pktA, pktB] [pktASeq9, pktB] := by
    refine List.Forall₂.cons ?_ (List.Forall₂.cons ?_ List.Forall₂.nil)
    · exact ⟨rfl, rfl, rfl, rfl, rfl⟩
    · exact ⟨rfl, rfl, rfl, rfl, rfl⟩
  exact ⟨hf, by decide, c7_sequence_number_independent 0 [pktA, pktB] [pktASeq9, pktB] hf⟩

end RCS

namespace RCS

/-- Counterexample to claim C8 as stated: on the spec's own two-packet
scenario the code stamps the first sample 951869799.996, not 951869800.006,
and the second packet's sample 951869800.004, not 951869804.0. -/
theorem c8_counterexample :
    ((runStream 0 initState [pktA, pktB]).1.map Prod.fst)[0]? =
      some (951869799.996 : ℚ) ∧
    (951869799.996 : ℚ) ≠ (951869800.006 : ℚ) ∧
    ((runStream 0 initState [pktA, pktB]).1.map Prod.fst)[8]? =
      some (951869800.004 : ℚ) ∧
    (951869800.004 : ℚ) ≠ (951869804.0 : ℚ) := by
  refine ⟨by decide, by decide, by decide, by decide⟩

/-- Claim C8 (amended): in the end-to-end scenario the chunk origin is
951869800.0, the first sample is stamped 951869799.996, the second packet does
not re-sync, its wrapped tick delta is 40 giving accumulated ticks 40, and its
single sample is stamped 951869800.004, with no error. -/
theorem c8_amended_scenario :
    (statesAfter 0 initState [pktA]).t_chunk_start = some (951869800.0 : ℚ) ∧
    ((runStream 0 initState [pktA, pktB]).1.map Prod.fst)[0]? =
      some (951869799.996 : ℚ) ∧
    resyncOf (statesAfter 0 initState [pktA]) pktB = false ∧
    elapsedOf (statesAfter 0 initState [pktA]) pktB = 40 ∧
    (statesAfter 0 initState [pktA, pktB]).system_tick_time = 40 ∧
    ((runStream 0 initState [pktA, pktB]).1.map Prod.fst)[8]? =
      some (951869800.004 : ℚ) ∧
    (runStream 0 initState [pktA, pktB]).2 = none := by
  refine ⟨by decide, by decide, by decide, by decide, by decide, by decide, by decide⟩

end RCS

namespace RCS

lemma stepOK_facts (tz : ℚ) (s : IngestState) (p : Packet) (h : StepOK s p) :
    (processPacket tz s p).2.1 = none ∧
    resyncOf s p = false ∧
    (stepSt tz s p).t_chunk_start = s.t_chunk_start ∧
    (stepSt tz s p).system_tick_time = s.system_tick_time + elapsedOf s p ∧
    hiTime s ≤ hiTime (stepSt tz s p) ∧
    (∀ r ∈ (processPacket tz s p).1,
      hiTime s < r.1 ∧ r.1 ≤ hiTime (stepSt tz s p)) := by
  obtain ⟨hv, hchunk, hmts, hstp, hdrift, htpp, htpp0, hWF, helap⟩ := h
  obtain ⟨vc, hvc⟩ := Option.isSome_iff_exists.mp hv
  obtain ⟨tpp, htp⟩ := Option.isSome_iff_exists.mp htpp
  obtain ⟨t0, ht0⟩ := Option.isSome_iff_exists.mp hchunk
  rw [htp] at htpp0
  simp only [Option.getD_some] at htpp0
  rw [htp] at helap
  simp only [Option.getD_some] at helap
  have hres : resyncOf s p = false := by
    simp [resyncOf, resyncNeeded, ht0]
    simpa [mtsPrevOf] using not_le.mpr hdrift
  have hfields := stepSt_fields tz s p vc hvc
  have hcs : chunkStartOf tz s p = t0 := by
    simp [chunkStartOf, hres, ht0]
  have hsttOf : sttOf s p = s.system_tick_time + elapsedOf s p := by
    simp [sttOf, hres, elapsedOf]
  have htcs : (stepSt tz s p).t_chunk_start = s.t_chunk_start := by
    rw [hfields.1, hcs, ht0]
  have hstt : (stepSt tz s p).system_tick_time = s.system_tick_time + elapsedOf s p := by
    rw [hfields.2.1, hsttOf]
  have helap0 : (0 : ℤ) ≤ elapsedOf s p :=
    Int.emod_nonneg _ (by norm_num [SYSTEM_TICK_CLOCK])
  have hdur : (0 : ℚ) < SYSTEM_TICK_DURATION := by norm_num [SYSTEM_TICK_DURATION]
  have hhi : hiTime s ≤ hiTime (stepSt tz s p) := by
    unfold hiTime
    rw [htcs, hstt]
    have : (0 : ℚ) ≤ (elapsedOf s p : ℚ) := by exact_mod_cast helap0
    push_cast
    nlinarith
  have hn1 : 1 ≤ pN p := hWF.2.1
  refine ⟨?_, hres, htcs, hstt, hhi, ?_⟩
  · rw [processPacket_eq tz s p vc tpp hvc htp hWF]
  · intro r hr
    rw [processPacket_eq tz s p vc tpp hvc htp hWF] at hr
    obtain ⟨ic, hic, hreq⟩ := List.mem_map.mp hr
    have hm := pairsFrom_mem (by simpa [pointChannelPairs] using hic)
    have hi_lt : ic.1 < pN p := by omega
    have hr1 : r.1 = pointTime tz s p tpp ic.1 := by rw [← hreq]
    have hiq : (ic.1 : ℚ) ≤ (pN p : ℚ) - 1 := by
      have : (ic.1 : ℚ) + 1 ≤ (pN p : ℚ) := by exact_mod_cast (by omega : ic.1 + 1 ≤ pN p)
      linarith
    have hiq0 : (0 : ℚ) ≤ (ic.1 : ℚ) := by positivity
    have helq : ((pN p : ℚ) - 1) * tpp < (elapsedOf s p : ℚ) := helap
    constructor
    · rw [hr1]
      unfold pointTime hiTime
      rw [hcs, hsttOf, ht0]
      simp only [Option.getD_some]
      push_cast
      nlinarith [mul_le_mul_of_nonneg_right hiq0 (le_of_lt htpp0)]
    · rw [hr1]
      unfold pointTime hiTime
      rw [hcs, hstt, htcs, ht0, hsttOf]
      simp only [Option.getD_some]
      push_cast
      nlinarith [mul_le_mul_of_nonneg_right hiq (le_of_lt htpp0)]

end RCS

namespace RCS

lemma block_spacing (tz : ℚ) (s : IngestState) (p : Packet) (v_coef tpp : ℚ)
    (hv : V_UNIT_SCALE p.units = some v_coef)
    (ht : tppOf s p = some tpp)
    (hWF : packetWF p) :
    ∀ j, j + 4 < (processPacket tz s p).1.length →
      ((processPacket tz s p).1.map Prod.fst)[j + 4]? =
        (((processPacket tz s p).1.map Prod.fst)[j]?).map
          (fun x => x + tpp * SYSTEM_TICK_DURATION) := by
  intro j hj
  rw [processPacket_eq tz s p v_coef tpp hv ht hWF] at hj ⊢
  simp only [List.length_map, pointChannelPairs, pairsFrom_length] at hj
  simp only [List.map_map, List.getElem?_map, pointChannelPairs]
  rw [pairsFrom_getElem 0 (pN p) (j + 4) (by omega),
    pairsFrom_getElem 0 (pN p) j (by omega)]
  simp only [Option.map_some', Function.comp_apply]
  congr 1
  have h4 : (j + 4) / 4 = j / 4 + 1 := by omega
  rw [h4]
  unfold pointTime
  push_cast
  ring

end RCS

namespace RCS

lemma chunkOK_blocks (tz : ℚ) :
    ∀ (ps : List Packet) (s : IngestState), ChunkOK tz s ps →
      (∀ k, (hk : k < ps.length) →
        (chunkRecords tz s ps).getD k [] =
          (processPacket tz (statesAfter tz s (ps.take k)) (ps.get ⟨k, hk⟩)).1) ∧
      (∀ k, (hk : k < ps.length) → StepOK (statesAfter tz s (ps.take k)) (ps.get ⟨k, hk⟩)) ∧
      (∀ k, (hk : k < ps.length) →
        ∀ r ∈ (chunkRecords tz s ps).getD k [],
          hiTime (statesAfter tz s (ps.take k)) < r.1 ∧
          r.1 ≤ hiTime (statesAfter tz s (ps.take (k + 1)))) ∧
      (∀ k, k < ps.length →
        hiTime (statesAfter tz s (ps.take k)) ≤ hiTime (statesAfter tz s (ps.take (k + 1)))) := by
  intro ps
  induction ps with
  | nil =>
    intro s _
    refine ⟨?_, ?_, ?_, ?_⟩ <;> (intro k hk; simp at hk)
  | cons p ps2 ih =>
    intro s h
    obtain ⟨hstep, hrest⟩ := h
    obtain ⟨ihb, ihs, ihbd, ihm⟩ := ih (stepSt tz s p) hrest
    have hfacts := stepOK_facts tz s p hstep
    have htakesucc : ∀ k, statesAfter tz s ((p :: ps2).take (k + 1)) =
        statesAfter tz (stepSt tz s p) (ps2.take k) := by
      intro k
      simp [statesAfter, stepSt]
    have hcr : chunkRecords tz s (p :: ps2) =
        (processPacket tz s p).1 :: chunkRecords tz (stepSt tz s p) ps2 := rfl
    refine ⟨?_, ?_, ?_, ?_⟩
    · intro k hk
      cases k with
      | zero => simp [hcr, statesAfter]
      | succ k2 =>
        rw [hcr]
        simp only [List.getD_cons_succ, List.get_cons_succ]
        rw [htakesucc k2]
        exact ihb k2 (by simpa using hk)
    · intro k hk
      cases k with
      | zero => exact hstep
      | succ k2 =>
        simp only [List.get_cons_succ]
        rw [htakesucc k2]
        exact ihs k2 (by simpa using hk)
    · intro k hk
      cases k with
      | zero =>
        intro r hr
        rw [hcr] at hr
        simp only [List.getD_cons_zero] at hr
        have hb := hfacts.2.2.2.2.2 r hr
        constructor
        · exact hb.1
        · rw [htakesucc 0]
          simpa [statesAfter] using hb.2
      | succ k2 =>
        intro r hr
        rw [hcr] at hr
        simp only [List.getD_cons_succ] at hr
        rw [htakesucc k2, htakesucc (k2 + 1)]
        exact ihbd k2 (by simpa using hk) r hr
    · intro k hk
      cases k with
      | zero =>
        rw [htakesucc 0]
        simpa [statesAfter] using hfacts.2.2.2.2.1
      | succ k2 =>
        rw [htakesucc k2, htakesucc (k2 + 1)]
        exact ihm k2 (by simpa using hk)

end RCS

namespace RCS

lemma hi_chain (tz : ℚ) (s : IngestState) (ps : List Packet) (h : ChunkOK tz s ps) :
    ∀ k l, k ≤ l → l ≤ ps.length →
      hiTime (statesAfter tz s (ps.take k)) ≤ hiTime (statesAfter tz s (ps.take l)) := by
  have hmono := (chunkOK_blocks tz ps s h).2.2.2
  intro k l hkl hl
  induction l with
  | zero =>
    have : k = 0 := by omega
    subst this
    exact le_refl _
  | succ l2 ihl =>
    rcases Nat.lt_or_ge k (l2 + 1) with hlt | hge
    · have h1 := ihl (by omega) (by omega)
      have h2 := hmono l2 (by omega)
      linarith
    · have : k = l2 + 1 := by omega
      subst this
      exact le_refl _

/-- Claim C3 (amended): within one chunk — no re-sync between packets and, as
the counterexample forces, every packet's wrapped tick delta exceeding
(n - 1) * ticks_per_point — consecutive sample timestamps inside each packet
are spaced exactly ticks_per_point * SYSTEM_TICK_DURATION apart, and every
record of a later packet is stamped strictly after every record of an earlier
packet. -/
theorem c3_chunk_monotonicity (tz : ℚ) (s : IngestState) (ps : List Packet)
    (hchunk : ChunkOK tz s ps) :
    (∀ k, (hk : k < ps.length) → ∀ j,
        j + 4 < ((chunkRecords tz s ps).getD k []).length →
        (((chunkRecords tz s ps).getD k []).map Prod.fst)[j + 4]? =
          ((((chunkRecords tz s ps).getD k []).map Prod.fst)[j]?).map
            (fun x => x +
              (tppOf (statesAfter tz s (ps.take k)) (ps.get ⟨k, hk⟩)).getD 0 *
                SYSTEM_TICK_DURATION)) ∧
    (∀ k l, k < ps.length → (hl : l < ps.length) → k < l →
      ∀ r ∈ (chunkRecords tz s ps).getD k [], ∀ w ∈ (chunkRecords tz s ps).getD l [],
        r.1 < w.1) := by
  obtain ⟨hb, hs, hbd, hmono⟩ := chunkOK_blocks tz ps s hchunk
  constructor
  · intro k hk j hj
    have hstep := hs k hk
    obtain ⟨hv, _, _, _, _, htpp, _, hWF, _⟩ := hstep
    obtain ⟨vc, hvc⟩ := Option.isSome_iff_exists.mp hv
    obtain ⟨tpp, htp⟩ := Option.isSome_iff_exists.mp htpp
    rw [hb k hk] at hj ⊢
    rw [htp]
    simp only [Option.getD_some]
    exact block_spacing tz _ _ vc tpp hvc htp hWF j hj
  · intro k l hk hl hkl r hr w hw
    have h1 := (hbd k hk r hr).2
    have h2 := (hbd l hl w hw).1
    have h3 : hiTime (statesAfter tz s (ps.take (k + 1))) ≤
        hiTime (statesAfter tz s (ps.take l)) :=
      hi_chain tz s ps hchunk (k + 1) l (by omega) (by omega)
    linarith

/-- Counterexample to claim C3 as stated: a second packet with the same
hardware tick and device timestamp stays in the chunk (no re-sync) yet repeats
the first packet's timestamps, so timestamps are not strictly increasing
across packet boundaries. -/
theorem c3_counterexample :
    resyncOf (stepSt 0 initState pktQ1) pktQ2 = false ∧
    ((chunkRecords 0 initState [pktQ1, pktQ2]).getD 0 []).map Prod.fst =
      [951869800, 951869800, 951869800, 951869800] ∧
    ((chunkRecords 0 initState [pktQ1, pktQ2]).getD 1 []).map Prod.fst =
      [951869800, 951869800, 951869800, 951869800] ∧
    ¬ (∀ r ∈ (chunkRecords 0 initState [pktQ1, pktQ2]).getD 0 [],
        ∀ w ∈ (chunkRecords 0 initState [pktQ1, pktQ2]).getD 1 [], r.1 < w.1) := by
  refine ⟨by decide, by decide, by decide, by decide⟩

/-- Witness for claim C3: a two-packet chunk with healthy tick advances
satisfies ChunkOK, and every record of the second packet is stamped after
every record of the first. -/
theorem c3_chunk_monotonicity_witness :
    ChunkOK 0 stChunk [pktB, pktC] ∧
    (∀ r ∈ (chunkRecords 0 stChunk [pktB, pktC]).getD 0 [],
      ∀ w ∈ (chunkRecords 0 stChunk [pktB, pktC]).getD 1 [], r.1 < w.1) := by
  have h1 : StepOK stChunk pktB := by
    unfold StepOK mtsPrevOf tppOf elapsedOf packetWF pN
    refine ⟨by decide, by decide, by decide, by decide, by decide, by decide,
      by decide, ⟨by decide, by decide, by decide⟩, by decide⟩
  have h2 : StepOK (stepSt 0 stChunk pktB) pktC := by
    unfold StepOK mtsPrevOf tppOf elapsedOf packetWF pN
    refine ⟨by decide, by decide, by decide, by decide, by decide, by decide,
      by decide, ⟨by decide, by decide, by decide⟩, by decide⟩
  have hOK : ChunkOK 0 stChunk [pktB, pktC] := ⟨h1, h2, trivial⟩
  exact ⟨hOK, fun r hr w hw =>
    (c3_chunk_monotonicity 0 stChunk [pktB, pktC] hOK).2 0 1 (by decide) (by decide)
      (by decide) r hr w hw⟩

end RCS
